import Mathlib

/-!
Shallow embedding of the Code-du-Travail email bots (repository
Pyzeur-ColonyLab/Code-du-Travail) and verification of the frozen claims.

The repository glues a language model to e-mail channels.  The deterministic
parts embedded here are:

* the string post-processing in `_clean_response` of the two mail-bot
  variants (`mailserver_email_bot.py`, `protonmail_email_bot.py`), including
  faithful models of the three `re.sub` calls used there;
* `generate_response` around the black-box model invocation (the decoded raw
  model output is a parameter; the exception branch is an `Except` input);
* `load_model`'s error propagation;
* `format_email_response` of both variants;
* the per-email processing pipeline `process_email` of both variants
  (fingerprint dedup, body-length / auto-reply filters, send/commit);
* the startup logic of `run.py` (`setup_environment`, `main`) together with
  the `MailserverEmailBot.__init__` configuration validation.

External effects (IMAP/SMTP transport, the model runtime, MIME parsing,
hashing) are abstracted: fetched messages arrive already parsed, the result
of `send_email` is a boolean parameter, and `hashlib.md5(x).hexdigest()` is
modelled by the pre-image string `x` itself, since only equality of
fingerprints is ever used.
-/

namespace CodeDuTravail

/-- Python's whitespace set: `str.isspace` / `re` `\s` for `str` patterns
(`[ \t\n\v\f\r\x1c-\x1f\x85\xa0  -     　]`).
Both `str.strip()` and the `\s` of the newline-collapsing regex use this set. -/
def pyWs (c : Char) : Bool :=
  c ∈ [' ', '\t', '\n', '\x0b', '\x0c', '\r',
       '\x1c', '\x1d', '\x1e', '\x1f', '\x85', '\xa0', ' ',
       ' ', ' ', ' ', ' ', ' ', ' ', ' ',
       ' ', ' ', ' ', ' ', ' ', ' ', ' ',
       ' ', '　']

/-- Python `str.strip()` on the character list: drop whitespace from the
front, then from the back. -/
def pyStrip (l : List Char) : List Char :=
  (l.dropWhile pyWs).rdropWhile pyWs

/-- Python `str.strip()`. -/
def pyStripStr (s : String) : String :=
  ⟨pyStrip s.data⟩

/-- Python `str.lower()`, restricted to ASCII case mapping (the auto-reply
keywords the bots compare against are pure ASCII). -/
def pyLower (s : String) : String :=
  ⟨s.data.map Char.toLower⟩

/-- Python `pat in s` substring containment (`pat` fixed, scanned left to
right). -/
def containsSub (pat : List Char) : List Char → Bool
  | [] => pat.isEmpty
  | c :: rest => pat.isPrefixOf (c :: rest) || containsSub pat rest

/-- The part of `l` strictly after the first occurrence of `pat`, if `pat`
occurs in `l`; `none` otherwise.  (`pat` is a nonempty literal at every use
site, so the empty-`l` case returning `none` agrees with Python.) -/
def afterFirst (pat : List Char) : List Char → Option (List Char)
  | [] => none
  | c :: rest =>
    if pat.isPrefixOf (c :: rest) then some (rest.drop (pat.length - 1))
    else afterFirst pat rest

/-- `re.sub(pat, '', s)` for a fixed literal pattern `pat`: remove all
non-overlapping occurrences, scanning left to right.  (In the recursive
branch, dropping `pat.length - 1` from `rest` equals dropping `pat.length`
from `c :: rest` because `pat` is nonempty at every use site.) -/
def removeAll (pat : List Char) : List Char → List Char
  | [] => []
  | c :: rest =>
    if pat.isPrefixOf (c :: rest) then removeAll pat (rest.drop (pat.length - 1))
    else c :: removeAll pat rest
termination_by l => l.length
decreasing_by
  · have h1 : (rest.drop (pat.length - 1)).length = rest.length - (pat.length - 1) :=
      List.length_drop _ _
    simp only [List.length_cons]
    omega
  · simp

theorem afterFirst_length_le (pat : List Char) :
    ∀ l s, afterFirst pat l = some s → s.length ≤ l.length := by
  intro l
  induction l with
  | nil => intro s h; simp [afterFirst] at h
  | cons c rest ih =>
    intro s h
    rw [afterFirst] at h
    by_cases hp : pat.isPrefixOf (c :: rest)
    · rw [if_pos hp] at h
      cases h
      calc (rest.drop (pat.length - 1)).length ≤ rest.length := by
                simp [List.length_drop]
        _ ≤ (c :: rest).length := by simp
    · rw [if_neg hp] at h
      exact le_trans (ih s h) (by simp)

/-- The literal `[INST]`. -/
def instOpen : List Char := "[INST]".data

/-- The literal `[/INST]`. -/
def instClose : List Char := "[/INST]".data

/-- `re.sub(r'\[INST\].*?\[/INST\]', '', s, flags=re.DOTALL)`: a match starts
at an occurrence of `[INST]` and, by non-greediness, ends at the first
`[/INST]` that starts at least 6 characters later; matched spans are removed
and scanning resumes after each removed span.  An `[INST]` with no later
`[/INST]` matches nothing, and positions before the first such viable
`[INST]` cannot start a match, so they are kept verbatim. -/
def removeInstBlocks (l : List Char) : List Char :=
  match l with
  | [] => []
  | c :: rest =>
    if instOpen.isPrefixOf (c :: rest) then
      match h : afterFirst instClose (rest.drop 5) with
      | some s => removeInstBlocks s
      | none => c :: rest
    else c :: removeInstBlocks rest
termination_by l.length
decreasing_by
  · have h1 := afterFirst_length_le instClose (rest.drop 5) s h
    have h2 : (rest.drop 5).length ≤ rest.length := by simp [List.length_drop]
    simp only [List.length_cons]
    omega
  · simp

/-- `re.sub(r'<s>|</s>', '', s)`: at each position, try the alternative
`<s>` first, then `</s>`; remove matches, scanning left to right. -/
def removeSTagsAlt : List Char → List Char
  | [] => []
  | c :: rest =>
    if "<s>".data.isPrefixOf (c :: rest) then removeSTagsAlt (rest.drop 2)
    else if "</s>".data.isPrefixOf (c :: rest) then removeSTagsAlt (rest.drop 3)
    else c :: removeSTagsAlt rest
termination_by l => l.length
decreasing_by
  · have : (rest.drop 2).length = rest.length - 2 := List.length_drop _ _
    simp only [List.length_cons]
    omega
  · have : (rest.drop 3).length = rest.length - 3 := List.length_drop _ _
    simp only [List.length_cons]
    omega
  · simp

/-- Python `s.endswith('.')`. -/
def endsDot (l : List Char) : Bool := l.getLast? == some '.'

/-- The whitespace after the last `'\n'` of `r` (all of `r` if `r` has no
newline); contains no `'\n'`. -/
def afterLastNl (r : List Char) : List Char :=
  (r.reverse.takeWhile (fun c => c ≠ '\n')).reverse

/-- The effect of `re.sub(r'\n\s*\n\s*\n', '\n\n', s)` on one maximal
whitespace run `r`.  A match of this pattern consists of whitespace only, so
it lies inside a single maximal whitespace run; within a run holding at
least three newlines, the leftmost match starts at the run's first newline
and — by greediness of `\s*` — ends at the run's last newline, after which
scanning resumes past the run.  So a run with three or more newlines is
rewritten to: its newline-free head, then `"\n\n"`, then its newline-free
tail; any other run is unchanged. -/
def collapseRun (r : List Char) : List Char :=
  if 3 ≤ r.count '\n' then
    r.takeWhile (fun c => c ≠ '\n') ++ '\n' :: '\n' :: afterLastNl r
  else r

/-- `re.sub(r'\n\s*\n\s*\n', '\n\n', s)`: apply `collapseRun` to every
maximal whitespace run of `s`, keeping non-whitespace characters. -/
def collapseNl (l : List Char) : List Char :=
  match l with
  | [] => []
  | c :: rest =>
    if h : pyWs c then
      collapseRun ((c :: rest).takeWhile pyWs) ++ collapseNl ((c :: rest).dropWhile pyWs)
    else c :: collapseNl rest
termination_by l.length
decreasing_by
  · rw [List.dropWhile_cons, if_pos h]
    have h2 := (List.dropWhile_suffix (l := rest) pyWs).sublist.length_le
    simp only [List.length_cons]
    omega
  · simp

/-- Whether some suffix of `l` starts with a newline whose maximal
whitespace run contains at least three newlines — i.e. whether the pattern
`\n\s*\n\s*\n` matches somewhere in `l`.  Verification-layer predicate used
to analyse `collapseNl`. -/
def hasTriple : List Char → Bool
  | [] => false
  | c :: rest =>
    ((c == '\n') && decide (3 ≤ ((c :: rest).takeWhile pyWs).count '\n')) || hasTriple rest

/-- Whether `l` is empty or starts with a non-whitespace character.
Verification-layer predicate. -/
def wsFreeHead : List Char → Bool
  | [] => true
  | c :: _ => !pyWs c

/-- The parsed fields of an incoming message as `process_email` reads them:
`From`, decoded `Subject`, `Message-ID`, and the extracted plain-text body
(first `text/plain` part, as decoded — extraction from the MIME structure is
outside the model). -/
structure EmailMsg where
  sender : String
  subject : String
  msgId : String
  body : String

namespace MailserverEmailBot

/-- Default of `EMAIL_DISCLAIMER` (`__init__`). -/
def defaultDisclaimer : String :=
  "Cette réponse est fournie à titre informatif uniquement. " ++
  "Pour des conseils juridiques précis et personnalisés, " ++
  "consultez un avocat spécialisé en droit du travail."

/-- Default of `EMAIL_SIGNATURE` (`__init__`). -/
def defaultSignature : String := "Assistant IA Code du Travail - ColonyLab"

/-- `MailserverEmailBot._clean_response`: remove `[INST]…[/INST]` blocks,
remove `<s>`, remove `</s>`, collapse whitespace runs with 3+ newlines to
two newlines, strip. -/
def clean_response (response : String) : String :=
  ⟨pyStrip (collapseNl (removeAll "</s>".data (removeAll "<s>".data
      (removeInstBlocks response.data))))⟩

/-- The fallback sentence substituted in `generate_response` when the
decoded model output strips to the empty string. -/
def fallback : String :=
  "Je n'ai pas pu générer une réponse appropriée à votre question. Pourriez-vous la reformuler ?"

/-- `MailserverEmailBot.generate_response`.  The external tokenizer/model
call and decode are abstracted into `attempt`:
`Except.ok raw` is the decoded generation output (before the `.strip()` the
source applies on the decode line), `Except.error e` is an exception raised
inside the `try` block (caught and rendered as an error string).
`loaded` is `self.model is not None and self.tokenizer is not None`.
The returned value is always a plain string: this function never raises. -/
def generate_response (loaded : Bool) (attempt : Except String String) : String :=
  if loaded = false then "❌ Le modèle n'est pas encore chargé."
  else
    match attempt with
    | Except.error e => "Erreur lors de la génération de la réponse: " ++ e
    | Except.ok raw =>
      let response := pyStripStr raw
      let response := if response = "" then fallback else response
      clean_response response

/-- `MailserverEmailBot.load_model`.  `model_present` is
`self.model is not None` (the early-return guard); `attempt` is the outcome
of the loading sequence inside the `try` block.  On an exception the source
logs the error and re-raises (`raise`), so the error propagates to the
caller; modelled by returning `Except.error`. -/
def load_model (model_present : Bool) (attempt : Except String Unit) :
    Except String Unit :=
  if model_present then Except.ok ()
  else
    match attempt with
    | Except.ok () => Except.ok ()
    | Except.error e => Except.error e

/-- `MailserverEmailBot.format_email_response`: greeting, fixed
introduction, separator, the AI answer, then a footer holding the
disclaimer and signature.  The `question` and `sender_email` arguments are
accepted but not used by the source. -/
def format_email_response (disclaimer signature : String)
    (question ai_response sender_email : String) : String :=
  let greeting := "Bonjour,\n\n"
  let introduction :=
    "Merci pour votre question concernant le Code du Travail français. " ++
    "Voici ma réponse basée sur ma connaissance spécialisée du droit du travail :\n\n"
  let separator := "📋 **Réponse détaillée :**\n\n"
  let footer :=
    "\n\n---\n\n" ++
    "⚠️ **Avertissement :** " ++ disclaimer ++ "\n\n" ++
    "Cordialement,\n" ++
    signature
  greeting ++ introduction ++ separator ++ ai_response ++ footer

/-- `MailserverEmailBot.get_email_hash`: fingerprint of
`f"{msg_id}_{subject}_{sender}"`.  `hashlib.md5(x).hexdigest()` is modelled
by the pre-image `x` itself (only fingerprint equality is used by the
code). -/
def get_email_hash (msg_id subject sender : String) : String :=
  msg_id ++ "_" ++ subject ++ "_" ++ sender

/-- The keywords of the auto-reply filter in `process_email`. -/
def autoReplyKeywords : List String := ["auto-reply", "automatic", "noreply", "no-reply"]

/-- `any(keyword in subject.lower() for keyword in [...])`. -/
def isAutoReplySubject (subject : String) : Bool :=
  autoReplyKeywords.any (fun kw => containsSub kw.data (pyLower subject).data)

/-- Result of one `process_email` call: the processed-fingerprint set
afterwards, how many times `generate_response` was invoked, and the sent
reply (`(to, subject, body)`) if `send_email` was attempted. -/
structure ProcResult where
  processed : List String
  genCalls : Nat
  sent : Option (String × String × String)
deriving DecidableEq

/-- `MailserverEmailBot.process_email` on one fetched message.
`processed` is `self.processed_emails` (a set, modelled as a list with
membership);
`fetch` is `none` when the IMAP fetch status is not `'OK'`;
`gen` is `self.generate_response` (already-loaded happy path — only its
invocation count and output string matter here);
`send_ok` is the boolean result of `self.send_email` (which catches its own
exceptions).  Steps, in source order: fingerprint dedup check; body strip;
empty/short-body skip; auto-reply-subject skip; generate; format; reply
subject; send; on send success (only) add the fingerprint to the set. -/
def process_email (disclaimer signature : String) (processed : List String)
    (fetch : Option EmailMsg) (gen : String → String) (send_ok : Bool) :
    ProcResult :=
  match fetch with
  | none => ⟨processed, 0, none⟩
  | some msg =>
    let email_hash := get_email_hash msg.msgId msg.subject msg.sender
    if email_hash ∈ processed then ⟨processed, 0, none⟩
    else
      let body := pyStripStr msg.body
      if body = "" ∨ body.length < 10 then ⟨processed, 0, none⟩
      else if isAutoReplySubject msg.subject then ⟨processed, 0, none⟩
      else
        let ai_response := gen body
        let email_response :=
          format_email_response disclaimer signature body ai_response msg.sender
        let response_subject :=
          if msg.subject.startsWith "Re:" then msg.subject else "Re: " ++ msg.subject
        if send_ok then
          ⟨email_hash :: processed, 1, some (msg.sender, response_subject, email_response)⟩
        else
          ⟨processed, 1, some (msg.sender, response_subject, email_response)⟩

end MailserverEmailBot

namespace ProtonMailBot

/-- Default of `EMAIL_DISCLAIMER` (`__init__`); same text as the mailserver
variant. -/
def defaultDisclaimer : String := MailserverEmailBot.defaultDisclaimer

/-- Default of `EMAIL_SIGNATURE` (`__init__`); same text as the mailserver
variant. -/
def defaultSignature : String := MailserverEmailBot.defaultSignature

/-- `ProtonMailBot._clean_response`: remove `[INST]…[/INST]` blocks, remove
`<s>` / `</s>` (one alternation pass), collapse whitespace runs with 3+
newlines, strip, and append a final `'.'` unless the result already ends
with one. -/
def clean_response (response : String) : String :=
  let u : List Char :=
    pyStrip (collapseNl (removeSTagsAlt (removeInstBlocks response.data)))
  if endsDot u then ⟨u⟩ else ⟨u ++ ['.']⟩

/-- The fallback sentence substituted in `generate_response` when the
decoded model output strips to the empty string (same text as the
mailserver variant). -/
def fallback : String := MailserverEmailBot.fallback

/-- `ProtonMailBot.generate_response`; same structure as the mailserver
variant, but with this variant's `_clean_response`. -/
def generate_response (loaded : Bool) (attempt : Except String String) : String :=
  if loaded = false then "❌ Le modèle n'est pas encore chargé."
  else
    match attempt with
    | Except.error e => "Erreur lors de la génération de la réponse: " ++ e
    | Except.ok raw =>
      let response := pyStripStr raw
      let response := if response = "" then fallback else response
      clean_response response

/-- `ProtonMailBot.format_email_response`: fixed introduction, the AI
answer, then a footer with the disclaimer, a recommendation line, the
signature and a "Généré le …" line carrying the current wall-clock time
`datetime.now().strftime('%d/%m/%Y à %H:%M')`, passed in as `now`.  The
`question` and `sender_email` arguments are accepted but not used. -/
def format_email_response (disclaimer signature : String) (now : String)
    (question ai_response sender_email : String) : String :=
  let introduction :=
    "Bonjour,\n\n" ++
    "Merci pour votre question concernant le Code du Travail français. " ++
    "Voici ma réponse détaillée basée sur ma connaissance du droit du travail :\n\n"
  let eqBar : String := ⟨List.replicate 60 '='⟩
  let footer :=
    "\n\n" ++ eqBar ++ "\n" ++
    "⚠️  CLAUSE DE NON-RESPONSABILITÉ\n\n" ++
    disclaimer ++ "\n\n" ++
    "Pour toute question urgente ou complexe, nous vous recommandons " ++
    "de consulter directement un professionnel du droit.\n\n" ++
    "Cordialement,\n" ++
    signature ++ "\n" ++
    eqBar ++ "\n" ++
    "Email automatique - Ne pas répondre directement à ce message\n" ++
    "Généré le " ++ now
  introduction ++ ai_response ++ footer

/-- `ProtonMailBot.get_email_hash`: fingerprint of
`f"{msg_id}{subject}{sender}"` (no separators in this variant);
`hashlib.md5(x).hexdigest()` modelled by the pre-image `x`. -/
def get_email_hash (msg_id subject sender : String) : String :=
  msg_id ++ subject ++ sender

/-- Result of one `ProtonMailBot.process_email` call; `marked_seen` records
whether the `mail.store(email_id, '+FLAGS', '\\Seen')` call was reached. -/
structure ProcResult where
  processed : List String
  genCalls : Nat
  sent : Option (String × String × String)
  marked_seen : Bool
deriving DecidableEq

/-- `ProtonMailBot.process_email` on one fetched message.  Unlike the
mailserver variant there is no body-length minimum (only an
empty-after-strip check), no auto-reply-subject filter, and the body is
passed to generation un-stripped; the subject is handed to `send_email`
unchanged (that method adds the `Re:` prefix).  The fingerprint is added
and the message flagged `\Seen` only when `send_email` returns `True`. -/
def process_email (disclaimer signature : String) (now : String)
    (processed : List String) (fetch : Option EmailMsg)
    (gen : String → String) (send_ok : Bool) : ProcResult :=
  match fetch with
  | none => ⟨processed, 0, none, false⟩
  | some msg =>
    let email_hash := get_email_hash msg.msgId msg.subject msg.sender
    if email_hash ∈ processed then ⟨processed, 0, none, false⟩
    else
      if pyStripStr msg.body = "" then ⟨processed, 0, none, false⟩
      else
        let ai_response := gen msg.body
        let email_response :=
          format_email_response disclaimer signature now msg.body ai_response msg.sender
        if send_ok then
          ⟨email_hash :: processed, 1, some (msg.sender, msg.subject, email_response), true⟩
        else
          ⟨processed, 1, some (msg.sender, msg.subject, email_response), false⟩

end ProtonMailBot

namespace Runner

/-- Python truthiness test `not x` on an optional environment variable:
true when the variable is unset or set to the empty string. -/
def falsyEnv : Option String → Bool
  | none => true
  | some s => s = ""

/-- The environment and external-world inputs `run.py` and the
`MailserverEmailBot` constructor consult on the way to starting the email
bot.  `deps_ok` abstracts `check_dependencies` (`torch`/`transformers`/
`telegram` importable); `load_attempt` abstracts the model-loading sequence
run by `bot.start()`. -/
structure Env where
  telegram_bot_token : Option String
  email_address : Option String
  email_password : Option String
  email_domain : Option String
  deps_ok : Bool
  load_attempt : Except String Unit

/-- `--mode {telegram,email,both}` of `run.py`. -/
inductive Mode
  | telegram
  | email
  | both
deriving DecidableEq

/-- Validation performed by `MailserverEmailBot.__init__` (the two
`raise ValueError(...)` guards, in source order).  Device probing, numeric
parameter parsing from defaulted variables, and logging are side-effect
free for the modelled inputs and elided. -/
def mailserverBotInit (env : Env) : Except String Unit :=
  if falsyEnv env.email_address || falsyEnv env.email_password then
    Except.error "EMAIL_ADDRESS and EMAIL_PASSWORD must be set in .env"
  else if falsyEnv env.email_domain then
    Except.error "EMAIL_DOMAIN must be set in .env"
  else Except.ok ()

/-- Outcome of `run.py main()`.
`configExit`: `setup_environment` found `TELEGRAM_BOT_TOKEN` unset/empty
and called `sys.exit(1)` — no bot object was constructed.
`depsExit`: `check_dependencies` hit an `ImportError` and called
`sys.exit(1)`.
`checkOk`: `--check` was given and `main` returned normally.
`botError e`: an exception escaped the selected bot runner (here: the email
bot constructor or model load raised; `mailserver_email_bot.main` re-raises,
`run_email_bot` re-raises, `main` catches and calls `sys.exit(1)`) — no
IMAP or SMTP connection was attempted.
`emailMonitoring`: email bot constructed, model loaded, the monitoring loop
was entered (the first thing each cycle does is connect to IMAP).
`telegramStarted` / `bothStarted`: other modes, outside the e-mail claims;
kept abstract. -/
inductive MainResult
  | configExit
  | depsExit
  | checkOk
  | botError (e : String)
  | emailMonitoring
  | telegramStarted
  | bothStarted
deriving DecidableEq

/-- The process exit code produced by each outcome (`none` while a bot is
still running). -/
def MainResult.exitCode : MainResult → Option Nat
  | .configExit => some 1
  | .depsExit => some 1
  | .checkOk => some 0
  | .botError _ => some 1
  | .emailMonitoring => none
  | .telegramStarted => none
  | .bothStarted => none

/-- Whether the email-bot path opened (or started opening) a mail
connection: only once monitoring begins does `check_new_emails` call
`connect_imap`, and `send_email` (SMTP) happens later still. -/
def MainResult.mailConnectionAttempted : MainResult → Bool
  | .emailMonitoring => true
  | _ => false

/-- Whether `MailserverEmailBot.__init__` ran to completion (an email bot
object was constructed). -/
def MainResult.emailBotConstructed : MainResult → Bool
  | .emailMonitoring => true
  | .botError _ => false
  | _ => false

/-- `run.py main()` for the given arguments: `setup_environment` (exits 1
when `TELEGRAM_BOT_TOKEN` is falsy), `setup_directories` (pure side
effect), `check_dependencies` (exits 1 when imports fail), the `--check`
early return, then mode dispatch; in email mode the
`mailserver_email_bot.main` chain constructs the bot (validating
configuration), loads the model, and enters monitoring; any exception on
that path reaches `main`'s handler, which calls `sys.exit(1)`. -/
def mainRun (env : Env) (mode : Mode) (check : Bool) : MainResult :=
  if falsyEnv env.telegram_bot_token then .configExit
  else if env.deps_ok = false then .depsExit
  else if check then .checkOk
  else
    match mode with
    | .telegram => .telegramStarted
    | .both => .bothStarted
    | .email =>
      match mailserverBotInit env with
      | Except.error e => .botError e
      | Except.ok () =>
        match env.load_attempt with
        | Except.error e => .botError e
        | Except.ok () => .emailMonitoring

end Runner

/-! ## Claims -/

/-- **C1.**  For every email processed by the mail loop, the fingerprint is
added to the in-memory processed set iff `send_email` returns success; when
`send_email` fails the processed set is unchanged and the fingerprint is
absent, leaving the email eligible for retry.  Holds in both mail-bot
variants: the only statement adding to `processed_emails` sits in the
`if self.send_email(...)` success branch. -/
theorem claim_C1_fingerprint_iff_send_success
    (d sg now : String) (processed : List String) (msg : EmailMsg)
    (gen : String → String) (send_ok : Bool) :
    ((MailserverEmailBot.get_email_hash msg.msgId msg.subject msg.sender ∈
        (MailserverEmailBot.process_email d sg processed (some msg) gen send_ok).processed ↔
      MailserverEmailBot.get_email_hash msg.msgId msg.subject msg.sender ∈ processed ∨
        ((MailserverEmailBot.process_email d sg processed (some msg) gen send_ok).sent ≠ none ∧
          send_ok = true)) ∧
     (send_ok = false →
       (MailserverEmailBot.process_email d sg processed (some msg) gen send_ok).processed =
         processed)) ∧
    ((ProtonMailBot.get_email_hash msg.msgId msg.subject msg.sender ∈
        (ProtonMailBot.process_email d sg now processed (some msg) gen send_ok).processed ↔
      ProtonMailBot.get_email_hash msg.msgId msg.subject msg.sender ∈ processed ∨
        ((ProtonMailBot.process_email d sg now processed (some msg) gen send_ok).sent ≠ none ∧
          send_ok = true)) ∧
     (send_ok = false →
       (ProtonMailBot.process_email d sg now processed (some msg) gen send_ok).processed =
         processed)) := by
  constructor
  · unfold MailserverEmailBot.process_email
    dsimp only
    split_ifs <;> cases send_ok <;> simp_all
  · unfold ProtonMailBot.process_email
    dsimp only
    split_ifs <;> cases send_ok <;> simp_all

/-- Witness for C1 at a concrete failing send: the processed set stays
empty in both variants. -/
theorem claim_C1_witness :
    (MailserverEmailBot.process_email "" "" []
        (some ⟨"a@b.c", "Question", "<id1>", "Corps de question assez long"⟩)
        (fun _ => "réponse") false).processed = [] ∧
    (ProtonMailBot.process_email "" "" "01/01/2025 à 10:00" []
        (some ⟨"a@b.c", "Question", "<id1>", "Corps de question assez long"⟩)
        (fun _ => "réponse") false).processed = [] :=
  ⟨(claim_C1_fingerprint_iff_send_success "" "" "01/01/2025 à 10:00" []
      ⟨"a@b.c", "Question", "<id1>", "Corps de question assez long"⟩
      (fun _ => "réponse") false).1.2 rfl,
   (claim_C1_fingerprint_iff_send_success "" "" "01/01/2025 à 10:00" []
      ⟨"a@b.c", "Question", "<id1>", "Corps de question assez long"⟩
      (fun _ => "réponse") false).2.2 rfl⟩

/-- **C2.**  An email whose fingerprint is already in the processed set is
returned from without invoking the generation adapter and without sending:
both variants return right after the membership test, leaving the set
unchanged, with zero `generate_response` calls and no send. -/
theorem claim_C2_already_processed_skips
    (d sg now : String) (processed : List String) (msg : EmailMsg)
    (gen : String → String) (send_ok : Bool) :
    (MailserverEmailBot.get_email_hash msg.msgId msg.subject msg.sender ∈ processed →
      MailserverEmailBot.process_email d sg processed (some msg) gen send_ok =
        ⟨processed, 0, none⟩) ∧
    (ProtonMailBot.get_email_hash msg.msgId msg.subject msg.sender ∈ processed →
      ProtonMailBot.process_email d sg now processed (some msg) gen send_ok =
        ⟨processed, 0, none, false⟩) := by
  constructor
  · intro h
    unfold MailserverEmailBot.process_email
    simp [h]
  · intro h
    unfold ProtonMailBot.process_email
    simp [h]

/-- Witness for C2: a concrete already-seen fingerprint short-circuits both
variants. -/
theorem claim_C2_witness :
    MailserverEmailBot.process_email "" "" ["<id1>_Question_a@b.c"]
        (some ⟨"a@b.c", "Question", "<id1>", "Corps de question assez long"⟩)
        (fun _ => "réponse") true =
      ⟨["<id1>_Question_a@b.c"], 0, none⟩ ∧
    ProtonMailBot.process_email "" "" "x" ["<id1>Questiona@b.c"]
        (some ⟨"a@b.c", "Question", "<id1>", "Corps de question assez long"⟩)
        (fun _ => "réponse") true =
      ⟨["<id1>Questiona@b.c"], 0, none, false⟩ :=
  ⟨(claim_C2_already_processed_skips "" "" "x" ["<id1>_Question_a@b.c"]
      ⟨"a@b.c", "Question", "<id1>", "Corps de question assez long"⟩
      (fun _ => "réponse") true).1 (by decide),
   (claim_C2_already_processed_skips "" "" "x" ["<id1>Questiona@b.c"]
      ⟨"a@b.c", "Question", "<id1>", "Corps de question assez long"⟩
      (fun _ => "réponse") true).2 (by decide)⟩

/-- **C4.**  `--mode email` with `EMAIL_DOMAIN` unset (and the other
startup variables set): the `MailserverEmailBot` constructor raises on the
missing `EMAIL_DOMAIN`, the exception escapes to `run.py main`, which calls
`sys.exit(1)` — before any IMAP or SMTP connection is attempted. -/
theorem claim_C4_missing_domain_exits
    (env : Runner.Env)
    (htok : Runner.falsyEnv env.telegram_bot_token = false)
    (haddr : Runner.falsyEnv env.email_address = false)
    (hpw : Runner.falsyEnv env.email_password = false)
    (hdom : env.email_domain = none)
    (hdeps : env.deps_ok = true) :
    Runner.mainRun env Runner.Mode.email false =
      Runner.MainResult.botError "EMAIL_DOMAIN must be set in .env" ∧
    (Runner.mainRun env Runner.Mode.email false).exitCode = some 1 ∧
    (Runner.mainRun env Runner.Mode.email false).mailConnectionAttempted = false := by
  have hinit : Runner.mailserverBotInit env =
      Except.error "EMAIL_DOMAIN must be set in .env" := by
    unfold Runner.mailserverBotInit
    rw [haddr, hpw, hdom]
    simp [Runner.falsyEnv]
  unfold Runner.mainRun
  rw [htok, hdeps]
  simp [hinit]
  exact ⟨rfl, rfl⟩

/-- Witness for C4 at a fully concrete environment. -/
theorem claim_C4_witness :
    Runner.mainRun
      ⟨some "tok", some "bot@d.tld", some "pw", none, true, Except.ok ()⟩
      Runner.Mode.email false =
      Runner.MainResult.botError "EMAIL_DOMAIN must be set in .env" :=
  (claim_C4_missing_domain_exits
    ⟨some "tok", some "bot@d.tld", some "pw", none, true, Except.ok ()⟩
    (by decide) (by decide) (by decide) rfl rfl).1

/-- **C10.**  `run.py` requires `TELEGRAM_BOT_TOKEN` in every mode: with
the token unset (or empty), `setup_environment` calls `sys.exit(1)` before
any mode dispatch, so in `--mode email` the email bot is never
constructed (even though it does not use that variable). -/
theorem claim_C10_token_required_every_mode
    (env : Runner.Env) (mode : Runner.Mode) (check : Bool)
    (htok : Runner.falsyEnv env.telegram_bot_token = true) :
    Runner.mainRun env mode check = Runner.MainResult.configExit ∧
    (Runner.mainRun env mode check).exitCode = some 1 ∧
    (Runner.mainRun env mode check).emailBotConstructed = false := by
  unfold Runner.mainRun
  rw [htok]
  simp
  exact ⟨rfl, rfl⟩

/-- Witness for C10: concrete email-mode run with the token unset but the
email variables present. -/
theorem claim_C10_witness :
    Runner.mainRun
      ⟨none, some "bot@d.tld", some "pw", some "d.tld", true, Except.ok ()⟩
      Runner.Mode.email false = Runner.MainResult.configExit :=
  (claim_C10_token_required_every_mode
    ⟨none, some "bot@d.tld", some "pw", some "d.tld", true, Except.ok ()⟩
    Runner.Mode.email false rfl).1

/-- **C3, counterexample.**  The claim quantifies over *each* mail-bot
variant, but `ProtonMailBot.process_email` has no auto-reply-subject
filter: a fresh email whose subject contains `no-reply` is generated for
and replied to. -/
theorem claim_C3_counterexample :
    (ProtonMailBot.process_email "" "" "01/01/2025 à 10:00" []
        (some ⟨"user@example.com", "no-reply: question RTT", "<id1>",
               "Puis-je prendre 5 jours de RTT ?"⟩)
        (fun q => q) true).genCalls = 1 ∧
    (ProtonMailBot.process_email "" "" "01/01/2025 à 10:00" []
        (some ⟨"user@example.com", "no-reply: question RTT", "<id1>",
               "Puis-je prendre 5 jours de RTT ?"⟩)
        (fun q => q) true).sent ≠ none ∧
    containsSub "no-reply".data (pyLower "no-reply: question RTT").data = true := by
  refine ⟨?_, ?_, by decide⟩
  · unfold ProtonMailBot.process_email
    norm_num [pyStripStr, pyStrip]
    decide
  · unfold ProtonMailBot.process_email
    norm_num [pyStripStr, pyStrip]
    decide

/-- **C3, amended.**  Only the Docker-mailserver variant skips auto-reply
subjects: (i) a subject whose lowering contains any of the four markers
(e.g. `no-reply` in any letter case) satisfies the code's filter predicate;
(ii) `MailserverEmailBot.process_email` then generates nothing and sends
nothing; (iii) `ProtonMailBot.process_email` applies no subject filter at
all: any fresh email with a nonempty stripped body — whatever its subject —
is passed to generation and, with a successful send, replied to. -/
theorem claim_C3_amended_only_mailserver_filters_auto_reply :
    (∀ (subject kw : String), kw ∈ MailserverEmailBot.autoReplyKeywords →
      containsSub kw.data (pyLower subject).data = true →
      MailserverEmailBot.isAutoReplySubject subject = true) ∧
    (∀ (d sg : String) (processed : List String) (msg : EmailMsg)
        (gen : String → String) (send_ok : Bool),
      MailserverEmailBot.isAutoReplySubject msg.subject = true →
      (MailserverEmailBot.process_email d sg processed (some msg) gen send_ok).genCalls = 0 ∧
      (MailserverEmailBot.process_email d sg processed (some msg) gen send_ok).sent = none) ∧
    (∀ (d sg now : String) (processed : List String) (msg : EmailMsg)
        (gen : String → String),
      ProtonMailBot.get_email_hash msg.msgId msg.subject msg.sender ∉ processed →
      pyStripStr msg.body ≠ "" →
      (ProtonMailBot.process_email d sg now processed (some msg) gen true).genCalls = 1 ∧
      (ProtonMailBot.process_email d sg now processed (some msg) gen true).sent ≠ none) := by
  refine ⟨?_, ?_, ?_⟩
  · intro subject kw hkw hsub
    unfold MailserverEmailBot.isAutoReplySubject
    exact List.any_eq_true.mpr ⟨kw, hkw, hsub⟩
  · intro d sg processed msg gen send_ok hauto
    unfold MailserverEmailBot.process_email
    dsimp only
    split_ifs <;> simp_all
  · intro d sg now processed msg gen hfresh hbody
    unfold ProtonMailBot.process_email
    dsimp only
    split_ifs <;> simp_all

/-- Witness for the amended C3: a concrete mixed-case `No-Reply` subject is
skipped by the mailserver variant, and a concrete `no-reply` email is
replied to by the ProtonMail variant. -/
theorem claim_C3_amended_witness :
    MailserverEmailBot.isAutoReplySubject "No-Reply: avis" = true ∧
    (MailserverEmailBot.process_email "" "" []
        (some ⟨"u@e.fr", "No-Reply: avis", "<m1>", "Corps suffisamment long ici"⟩)
        (fun q => q) true).genCalls = 0 ∧
    (ProtonMailBot.process_email "" "" "t" []
        (some ⟨"u@e.fr", "no-reply: avis", "<m1>", "Corps suffisamment long ici"⟩)
        (fun q => q) true).genCalls = 1 :=
  ⟨claim_C3_amended_only_mailserver_filters_auto_reply.1 "No-Reply: avis" "no-reply"
     (by decide) (by decide),
   (claim_C3_amended_only_mailserver_filters_auto_reply.2.1 "" "" []
     ⟨"u@e.fr", "No-Reply: avis", "<m1>", "Corps suffisamment long ici"⟩
     (fun q => q) true (by decide)).1,
   (claim_C3_amended_only_mailserver_filters_auto_reply.2.2 "" "" "t" []
     ⟨"u@e.fr", "no-reply: avis", "<m1>", "Corps suffisamment long ici"⟩
     (fun q => q) (by decide) (by decide)).1⟩

/-- **C8, counterexample.**  The claim asserts the 10-character minimum for
per-email processing (citing both variants), but `ProtonMailBot` only
rejects bodies that strip to empty: a fresh email with a 5-character body
is passed to generation and replied to, not skipped. -/
theorem claim_C8_counterexample :
    "Salut".length = 5 ∧
    (ProtonMailBot.process_email "" "" "t" []
        (some ⟨"u@e.fr", "Question", "<m2>", "Salut"⟩)
        (fun q => q) true).genCalls = 1 ∧
    (ProtonMailBot.process_email "" "" "t" []
        (some ⟨"u@e.fr", "Question", "<m2>", "Salut"⟩)
        (fun q => q) true).sent ≠ none := by
  refine ⟨by decide, ?_, ?_⟩
  · unfold ProtonMailBot.process_email
    norm_num [pyStripStr, pyStrip]
    decide
  · unfold ProtonMailBot.process_email
    norm_num [pyStripStr, pyStrip]
    decide

/-- **C8, amended.**  The boundary claim holds in the Docker-mailserver
variant only: (i) a stripped body shorter than 10 characters (so in
particular a 5-character body) is skipped — no generation, no send;
(ii) a stripped body of exactly 10 characters passes the length filter, so
with the other filters passing the email is generated for and a send is
attempted; (iii) the ProtonMail variant enforces no length minimum: any
fresh email whose body does not strip to empty — of any length — is
generated for. -/
theorem claim_C8_amended_min_length_mailserver_only :
    (∀ (d sg : String) (processed : List String) (msg : EmailMsg)
        (gen : String → String) (send_ok : Bool),
      (pyStripStr msg.body).length < 10 →
      (MailserverEmailBot.process_email d sg processed (some msg) gen send_ok).genCalls = 0 ∧
      (MailserverEmailBot.process_email d sg processed (some msg) gen send_ok).sent = none) ∧
    (∀ (d sg : String) (processed : List String) (msg : EmailMsg)
        (gen : String → String) (send_ok : Bool),
      (pyStripStr msg.body).length = 10 →
      MailserverEmailBot.get_email_hash msg.msgId msg.subject msg.sender ∉ processed →
      MailserverEmailBot.isAutoReplySubject msg.subject = false →
      (MailserverEmailBot.process_email d sg processed (some msg) gen send_ok).genCalls = 1 ∧
      (MailserverEmailBot.process_email d sg processed (some msg) gen send_ok).sent ≠ none) ∧
    (∀ (d sg now : String) (processed : List String) (msg : EmailMsg)
        (gen : String → String) (send_ok : Bool),
      ProtonMailBot.get_email_hash msg.msgId msg.subject msg.sender ∉ processed →
      pyStripStr msg.body ≠ "" →
      (ProtonMailBot.process_email d sg now processed (some msg) gen send_ok).genCalls = 1) := by
  refine ⟨?_, ?_, ?_⟩
  · intro d sg processed msg gen send_ok hlen
    have hshort : pyStripStr msg.body = "" ∨ (pyStripStr msg.body).length < 10 :=
      Or.inr hlen
    unfold MailserverEmailBot.process_email
    dsimp only
    split_ifs <;> simp_all
  · intro d sg processed msg gen send_ok hlen hfresh hauto
    have hnotshort : ¬(pyStripStr msg.body = "" ∨ (pyStripStr msg.body).length < 10) := by
      rintro (h | h)
      · rw [h] at hlen
        simp at hlen
      · omega
    unfold MailserverEmailBot.process_email
    dsimp only
    split_ifs <;> simp_all
  · intro d sg now processed msg gen send_ok hfresh hbody
    unfold ProtonMailBot.process_email
    dsimp only
    split_ifs <;> simp_all

/-- Witness for the amended C8 at concrete inputs: a 5-character body is
skipped and a 10-character body is processed by the mailserver variant, and
a 5-character body is processed by the ProtonMail variant. -/
theorem claim_C8_amended_witness :
    (MailserverEmailBot.process_email "" "" []
        (some ⟨"u@e.fr", "Question", "<m3>", "Salut"⟩)
        (fun q => q) true).genCalls = 0 ∧
    (MailserverEmailBot.process_email "" "" []
        (some ⟨"u@e.fr", "Question", "<m3>", "HelloHello"⟩)
        (fun q => q) true).genCalls = 1 ∧
    (ProtonMailBot.process_email "" "" "t" []
        (some ⟨"u@e.fr", "Question", "<m3>", "Salut"⟩)
        (fun q => q) true).genCalls = 1 :=
  ⟨(claim_C8_amended_min_length_mailserver_only.1 "" "" []
      ⟨"u@e.fr", "Question", "<m3>", "Salut"⟩ (fun q => q) true (by decide)).1,
   (claim_C8_amended_min_length_mailserver_only.2.1 "" "" []
      ⟨"u@e.fr", "Question", "<m3>", "HelloHello"⟩ (fun q => q) true
      (by decide) (by decide) (by decide)).1,
   claim_C8_amended_min_length_mailserver_only.2.2 "" "" "t" []
      ⟨"u@e.fr", "Question", "<m3>", "Salut"⟩ (fun q => q) true
      (by decide) (by decide)⟩

/-- **C9, counterexample.**  `ProtonMailBot.format_email_response`
interpolates `datetime.now().strftime('%d/%m/%Y à %H:%M')` into its footer
("Généré le …"), so two invocations with identical question, answer and
sender arguments but at different wall-clock minutes return different
strings — the formatter is not a pure function of its arguments in that
variant. -/
theorem claim_C9_counterexample :
    ProtonMailBot.format_email_response
        ProtonMailBot.defaultDisclaimer ProtonMailBot.defaultSignature
        "01/01/2025 à 10:00" "Question ?" "Réponse." "u@e.fr" ≠
      ProtonMailBot.format_email_response
        ProtonMailBot.defaultDisclaimer ProtonMailBot.defaultSignature
        "01/01/2025 à 10:01" "Question ?" "Réponse." "u@e.fr" := by
  set_option maxRecDepth 20000 in decide

/-- **C9, amended.**  The Docker-mailserver variant's formatter is a pure
concatenation — a fixed greeting/introduction/separator, the answer, and a
fixed disclaimer/signature footer — and depends on neither the `question`
nor the `sender_email` argument; the ProtonMail variant's result
additionally depends on the current time: the timestamp is recoverable from
the output, so different times give different outputs for the same
arguments. -/
theorem claim_C9_amended_formatter_purity :
    (∀ (d sg q a snd : String),
      MailserverEmailBot.format_email_response d sg q a snd =
        "Bonjour,\n\n" ++
        ("Merci pour votre question concernant le Code du Travail français. " ++
         "Voici ma réponse basée sur ma connaissance spécialisée du droit du travail :\n\n") ++
        "📋 **Réponse détaillée :**\n\n" ++ a ++
        ("\n\n---\n\n" ++ "⚠️ **Avertissement :** " ++ d ++ "\n\n" ++
         "Cordialement,\n" ++ sg)) ∧
    (∀ (d sg q q' a snd snd' : String),
      MailserverEmailBot.format_email_response d sg q a snd =
        MailserverEmailBot.format_email_response d sg q' a snd') ∧
    (∀ (d sg now now' q a snd : String),
      ProtonMailBot.format_email_response d sg now q a snd =
        ProtonMailBot.format_email_response d sg now' q a snd →
      now = now') := by
  refine ⟨fun d sg q a snd => rfl, fun d sg q q' a snd snd' => rfl, ?_⟩
  intro d sg now now' q a snd h
  unfold ProtonMailBot.format_email_response at h
  have hd := congrArg String.data h
  simp only [String.data_append, List.append_assoc, List.append_right_inj] at hd
  exact String.ext hd

/-- Witness for the amended C9 at concrete arguments (both fixed-output
equalities and the timestamp-recovery implication). -/
theorem claim_C9_amended_witness :
    MailserverEmailBot.format_email_response "D" "S" "q1" "a" "s1" =
      MailserverEmailBot.format_email_response "D" "S" "q2" "a" "s2" ∧
    ("10:00" : String) = "10:00" :=
  ⟨claim_C9_amended_formatter_purity.2.1 "D" "S" "q1" "q2" "a" "s1" "s2",
   claim_C9_amended_formatter_purity.2.2 "D" "S" "10:00" "10:00" "q" "a" "s" rfl⟩

/-- **C5, counterexample.**  `MailserverEmailBot.load_model` does *not*
surface failures as a user-facing string: its `except` block logs the error
and then re-raises (`raise`), so a load failure escapes the
generation-adapter boundary to the caller — contradicting the claim that
load errors never raise past this boundary. -/
theorem claim_C5_counterexample :
    MailserverEmailBot.load_model false (Except.error "model load failed") =
      Except.error "model load failed" ∧
    MailserverEmailBot.load_model false (Except.error "model load failed") ≠
      Except.ok () := by
  exact ⟨rfl, by simp [MailserverEmailBot.load_model]⟩

/-- **C5, amended.**  `generate_response` keeps the claimed contract — any
generation failure is caught and surfaced as a user-facing error string,
and an unloaded model yields a fixed notice, so `generate_response` never
raises — but `load_model` does not: it re-raises after logging, so every
load failure propagates to the caller unchanged (while a successful or
already-done load returns normally). -/
theorem claim_C5_amended_generate_catches_load_reraises :
    (∀ e : String,
      MailserverEmailBot.generate_response true (Except.error e) =
        "Erreur lors de la génération de la réponse: " ++ e) ∧
    (∀ attempt : Except String String,
      MailserverEmailBot.generate_response false attempt =
        "❌ Le modèle n'est pas encore chargé.") ∧
    (∀ e : String,
      MailserverEmailBot.load_model false (Except.error e) = Except.error e) ∧
    (∀ attempt : Except String Unit,
      MailserverEmailBot.load_model true attempt = Except.ok ()) ∧
    MailserverEmailBot.load_model false (Except.ok ()) = Except.ok () := by
  refine ⟨fun e => rfl, fun attempt => rfl, fun e => rfl, fun attempt => rfl, rfl⟩

theorem string_mk_ne_empty (l : List Char) (h : l ≠ []) : (⟨l⟩ : String) ≠ "" := by
  intro hcon
  exact h (congrArg String.data hcon)

/-- The ProtonMail cleanup ends every output with `'.'` (appending one when
absent), so its result is never the empty string. -/
theorem ProtonMailBot.clean_response_ne_empty (s : String) :
    ProtonMailBot.clean_response s ≠ "" := by
  unfold ProtonMailBot.clean_response
  dsimp only
  by_cases h : endsDot (pyStrip (collapseNl (removeSTagsAlt (removeInstBlocks s.data)))) = true
  · rw [if_pos h]
    apply string_mk_ne_empty
    intro hnil
    rw [hnil] at h
    simp [endsDot] at h
  · rw [if_neg h]
    apply string_mk_ne_empty
    simp

/-- Every branch of `ProtonMailBot.generate_response` yields a nonempty
string: the not-loaded notice and the error prefix are nonempty literals,
and the happy path ends in `_clean_response`, which ends with `'.'`. -/
theorem ProtonMailBot.generate_response_ne_empty
    (loaded : Bool) (attempt : Except String String) :
    ProtonMailBot.generate_response loaded attempt ≠ "" := by
  unfold ProtonMailBot.generate_response
  cases loaded with
  | false => simp
  | true =>
    simp only [Bool.true_eq_false, if_false]
    match attempt with
    | Except.error e =>
      intro hcon
      have hd := congrArg String.data hcon
      rw [String.data_append] at hd
      exact absurd (List.append_eq_nil.mp hd).1 (by decide)
    | Except.ok raw => exact ProtonMailBot.clean_response_ne_empty _

/-- **C6, counterexample.**  The fallback substitution happens *before*
`_clean_response`, not after: the decoded output `"<s>"` is nonempty, so no
fallback is substituted, and cleanup then deletes the `<s>` marker, making
`MailserverEmailBot.generate_response` return the empty string — refuting
"the returned answer is never the empty string". -/
theorem claim_C6_counterexample :
    MailserverEmailBot.generate_response true (Except.ok "<s>") = "" := by
  simp +decide [MailserverEmailBot.generate_response, MailserverEmailBot.clean_response,
    pyStripStr, removeInstBlocks, removeAll, collapseNl, collapseRun, pyStrip,
    List.rdropWhile, instOpen, instClose]

/-- **C6, amended.**  The fixed fallback sentence is substituted when the
decoded model output is empty *after trimming but before cleanup* (and the
fallback passes cleanup unchanged, so that case returns it verbatim); the
cleanup of a nonempty trimmed output may still produce the empty string in
the mailserver variant, whereas the ProtonMail variant's cleanup appends a
final period, so its returned answer is never empty. -/
theorem claim_C6_amended_fallback_before_cleanup :
    (∀ raw : String, pyStripStr raw = "" →
      MailserverEmailBot.generate_response true (Except.ok raw) =
        MailserverEmailBot.fallback) ∧
    MailserverEmailBot.fallback ≠ "" ∧
    (∀ (loaded : Bool) (attempt : Except String String),
      ProtonMailBot.generate_response loaded attempt ≠ "") := by
  refine ⟨?_, by decide, ProtonMailBot.generate_response_ne_empty⟩
  intro raw hraw
  unfold MailserverEmailBot.generate_response
  dsimp only
  rw [hraw]
  simp only [if_pos rfl]
  simp +decide [MailserverEmailBot.clean_response, MailserverEmailBot.fallback,
    removeInstBlocks, removeAll, collapseNl, collapseRun, pyStrip,
    instOpen, instClose]

/-- Witness for the amended C6: whitespace-only decoded output yields the
fallback sentence in the mailserver variant, and a concrete ProtonMail
generation result is nonempty. -/
theorem claim_C6_amended_witness :
    MailserverEmailBot.generate_response true (Except.ok "  \n ") =
      MailserverEmailBot.fallback ∧
    ProtonMailBot.generate_response true (Except.ok "Réponse") ≠ "" :=
  ⟨claim_C6_amended_fallback_before_cleanup.1 "  \n " (by decide),
   claim_C6_amended_fallback_before_cleanup.2.2 true (Except.ok "Réponse")⟩

/-! ### Lemmas about whitespace runs and `collapseNl`, towards C7 -/

theorem pyWs_nl : pyWs '\n' = true := by decide

theorem pyWs_dot : pyWs '.' = false := by decide

theorem takeWhile_append_of_all (p : Char → Bool) (a b : List Char)
    (h : ∀ c ∈ a, p c = true) : (a ++ b).takeWhile p = a ++ b.takeWhile p := by
  induction a with
  | nil => simp
  | cons c a ih =>
    have hc : p c = true := h c (by simp)
    simp only [List.cons_append, List.takeWhile_cons, hc, if_true]
    rw [ih (fun x hx => h x (by simp [hx]))]

theorem dropWhile_append_of_all (p : Char → Bool) (a b : List Char)
    (h : ∀ c ∈ a, p c = true) : (a ++ b).dropWhile p = b.dropWhile p := by
  induction a with
  | nil => simp
  | cons c a ih =>
    have hc : p c = true := h c (by simp)
    simp only [List.cons_append, List.dropWhile_cons, hc, if_true]
    exact ih (fun x hx => h x (by simp [hx]))

theorem takeWhile_eq_nil_of_wsFreeHead (b : List Char) (h : wsFreeHead b = true) :
    b.takeWhile pyWs = [] := by
  cases b with
  | nil => simp
  | cons c rest =>
    simp only [wsFreeHead, Bool.not_eq_true'] at h
    simp [List.takeWhile_cons, h]

theorem dropWhile_eq_self_of_wsFreeHead (b : List Char) (h : wsFreeHead b = true) :
    b.dropWhile pyWs = b := by
  cases b with
  | nil => simp
  | cons c rest =>
    simp only [wsFreeHead, Bool.not_eq_true'] at h
    simp [List.dropWhile_cons, h]

theorem wsFreeHead_dropWhile (l : List Char) : wsFreeHead (l.dropWhile pyWs) = true := by
  induction l with
  | nil => simp [wsFreeHead]
  | cons c rest ih =>
    rw [List.dropWhile_cons]
    by_cases h : pyWs c = true
    · simpa [h] using ih
    · simp only [h]
      simp only [Bool.false_eq_true, if_false, wsFreeHead]
      simp [Bool.not_eq_true'] at h ⊢
      exact h

theorem takeWhile_infix_of_append (p : Char → Bool) (l b : List Char) :
    l.takeWhile p <+: (l ++ b).takeWhile p := by
  induction l with
  | nil => simp
  | cons c rest ih =>
    by_cases h : p c = true
    · simp only [List.cons_append, List.takeWhile_cons, h, if_true]
      obtain ⟨t, ht⟩ := ih
      exact ⟨t, by rw [List.cons_append, ht]⟩
    · simp [List.takeWhile_cons, h]

theorem takeWhile_append_single_neg (p : Char → Bool) (l : List Char) (c : Char)
    (h : p c = false) : (l ++ [c]).takeWhile p = l.takeWhile p := by
  induction l with
  | nil => simp [List.takeWhile_cons, h]
  | cons x rest ih =>
    by_cases hx : p x = true
    · simp only [List.cons_append, List.takeWhile_cons, hx, if_true]
      rw [ih]
    · simp [List.takeWhile_cons, hx]

theorem hasTriple_append_right (a b : List Char) (h : hasTriple (a ++ b) = false) :
    hasTriple b = false := by
  induction a with
  | nil => exact h
  | cons c a ih =>
    rw [List.cons_append, hasTriple, Bool.or_eq_false_iff] at h
    exact ih h.2

theorem hasTriple_append_left (a b : List Char) (h : hasTriple (a ++ b) = false) :
    hasTriple a = false := by
  induction a with
  | nil => simp [hasTriple]
  | cons c a ih =>
    rw [List.cons_append, hasTriple, Bool.or_eq_false_iff] at h
    rw [hasTriple, Bool.or_eq_false_iff]
    refine ⟨?_, ih h.2⟩
    rcases Bool.and_eq_false_iff.mp h.1 with h1 | h1
    · exact Bool.and_eq_false_iff.mpr (Or.inl h1)
    · refine Bool.and_eq_false_iff.mpr (Or.inr ?_)
      simp only [decide_eq_false_iff_not, not_le] at h1 ⊢
      have hs : ((c :: a).takeWhile pyWs).count '\n' ≤
          (((c :: a) ++ b).takeWhile pyWs).count '\n' :=
        ((takeWhile_infix_of_append pyWs (c :: a) b).sublist).count_le '\n'
      simp only [List.cons_append] at hs
      omega

theorem hasTriple_append_single_nonws (u : List Char) (c : Char)
    (hc : pyWs c = false) (h : hasTriple u = false) :
    hasTriple (u ++ [c]) = false := by
  have hcnl : (c == '\n') = false := by
    by_cases hceq : c = '\n'
    · subst hceq
      rw [pyWs_nl] at hc
      exact absurd hc (by simp)
    · exact beq_eq_false_iff_ne.mpr hceq
  induction u with
  | nil =>
    simp only [List.nil_append, hasTriple, Bool.or_eq_false_iff]
    simp [hcnl]
  | cons x u ih =>
    rw [hasTriple, Bool.or_eq_false_iff] at h
    rw [List.cons_append, hasTriple, Bool.or_eq_false_iff]
    refine ⟨?_, ih h.2⟩
    have heq : (x :: (u ++ [c])).takeWhile pyWs = (x :: u).takeWhile pyWs := by
      have h0 := takeWhile_append_single_neg pyWs (x :: u) c hc
      rwa [List.cons_append] at h0
    rw [heq]
    exact h.1

theorem hasTriple_cons (c : Char) (rest : List Char) :
    hasTriple (c :: rest) =
      (((c == '\n') && decide (3 ≤ ((c :: rest).takeWhile pyWs).count '\n')) ||
        hasTriple rest) := rfl

theorem count_nl_collapseRun (r : List Char) : (collapseRun r).count '\n' ≤ 2 := by
  unfold collapseRun
  by_cases h : 3 ≤ r.count '\n'
  · rw [if_pos h]
    have h1 : (r.takeWhile (fun c => c ≠ '\n')).count '\n' = 0 := by
      refine List.count_eq_zero.mpr (fun hm => ?_)
      have := List.mem_takeWhile_imp hm
      simp at this
    have h2 : (afterLastNl r).count '\n' = 0 := by
      refine List.count_eq_zero.mpr (fun hm => ?_)
      rw [afterLastNl, List.mem_reverse] at hm
      have := List.mem_takeWhile_imp hm
      simp at this
    rw [List.count_append]
    rw [h1]
    simp [List.count_cons, h2]
  · rw [if_neg h]
    omega

theorem mem_collapseRun (r : List Char) (x : Char) (h : x ∈ collapseRun r) :
    x ∈ r ∨ x = '\n' := by
  unfold collapseRun at h
  by_cases h3 : 3 ≤ r.count '\n'
  · rw [if_pos h3] at h
    rcases List.mem_append.mp h with h | h
    · exact Or.inl (( List.takeWhile_prefix _).sublist.subset h)
    · rcases h with _ | ⟨_, h⟩
      · exact Or.inr rfl
      rcases h with _ | ⟨_, h⟩
      · exact Or.inr rfl
      have h' : x ∈ (r.reverse.takeWhile (fun c => decide (c ≠ '\n'))).reverse := h
      rw [List.mem_reverse] at h'
      have h2 := ( List.takeWhile_prefix (fun c : Char => decide (c ≠ '\n'))).sublist.subset h'
      rw [List.mem_reverse] at h2
      exact Or.inl h2
  · rw [if_neg h3] at h
    exact Or.inl h

theorem allWs_collapseRun (r : List Char) (h : ∀ c ∈ r, pyWs c = true) :
    ∀ c ∈ collapseRun r, pyWs c = true := by
  intro c hc
  rcases mem_collapseRun r c hc with hm | hm
  · exact h c hm
  · rw [hm]
    exact pyWs_nl

theorem wsFreeHead_collapseNl (t : List Char) (h : wsFreeHead t = true) :
    wsFreeHead (collapseNl t) = true := by
  cases t with
  | nil => simp [collapseNl, wsFreeHead]
  | cons c rest =>
    simp only [wsFreeHead, Bool.not_eq_true'] at h
    rw [collapseNl]
    simp only [h, Bool.false_eq_true, dite_false]
    simp [wsFreeHead, h]

theorem hasTriple_allws_append (a b : List Char)
    (ha : ∀ c ∈ a, pyWs c = true) (hcount : a.count '\n' ≤ 2)
    (hb : wsFreeHead b = true) (htb : hasTriple b = false) :
    hasTriple (a ++ b) = false := by
  induction a with
  | nil => simpa using htb
  | cons c a ih =>
    rw [List.cons_append, hasTriple, Bool.or_eq_false_iff]
    constructor
    · refine Bool.and_eq_false_iff.mpr (Or.inr ?_)
      have heq : (c :: (a ++ b)).takeWhile pyWs = (c :: a) ++ b.takeWhile pyWs := by
        have h0 := takeWhile_append_of_all pyWs (c :: a) b ha
        rwa [List.cons_append] at h0
      rw [heq, takeWhile_eq_nil_of_wsFreeHead b hb, List.append_nil]
      simp only [decide_eq_false_iff_not, not_le]
      omega
    · have hc : a.count '\n' ≤ 2 := by
        have := List.count_cons '\n' c a
        by_cases hcn : c = '\n' <;> simp_all <;> omega
      exact ih (fun x hx => ha x (by simp [hx])) hc

theorem hasTriple_collapseNl (l : List Char) : hasTriple (collapseNl l) = false := by
  induction l using collapseNl.induct with
  | case1 => simp [collapseNl, hasTriple]
  | case2 c rest h ih =>
    rw [collapseNl, dif_pos h]
    refine hasTriple_allws_append _ _ ?_ ?_ ?_ ?_
    · exact allWs_collapseRun _ (fun x hx => List.mem_takeWhile_imp hx)
    · exact count_nl_collapseRun _
    · exact wsFreeHead_collapseNl _ (wsFreeHead_dropWhile _)
    · exact ih
  | case3 c rest h ih =>
    rw [collapseNl, dif_neg h]
    rw [hasTriple_cons, Bool.or_eq_false_iff]
    refine ⟨?_, ih⟩
    have hcnl : (c == '\n') = false := by
      by_cases hceq : c = '\n'
      · subst hceq
        rw [pyWs_nl] at h
        simp at h
      · exact beq_eq_false_iff_ne.mpr hceq
    simp [hcnl]

theorem dropWhile_ne_nl_head (l : List Char) (h : '\n' ∈ l) :
    ∃ r₂, l.dropWhile (fun c => decide (c ≠ '\n')) = '\n' :: r₂ := by
  induction l with
  | nil => cases h
  | cons c rest ih =>
    by_cases hc : c = '\n'
    · subst hc
      exact ⟨rest, by simp [List.dropWhile_cons]⟩
    · rw [List.dropWhile_cons]
      have hd : decide (c ≠ '\n') = true := by simp [hc]
      simp only [hd, if_true]
      apply ih
      rcases List.mem_cons.mp h with h1 | h1
      · exact absurd h1.symm hc
      · exact h1

theorem collapseNl_eq_self (l : List Char) :
    hasTriple l = false → collapseNl l = l := by
  induction l using collapseNl.induct with
  | case1 => intro _; simp [collapseNl]
  | case2 c rest hws ih =>
    intro h
    rw [collapseNl, dif_pos hws]
    have hsplit : (c :: rest).takeWhile pyWs ++ (c :: rest).dropWhile pyWs = c :: rest :=
      List.takeWhile_append_dropWhile pyWs (c :: rest)
    have hallr : ∀ x ∈ (c :: rest).takeWhile pyWs, pyWs x = true :=
      fun x hx => List.mem_takeWhile_imp hx
    have hht : hasTriple ((c :: rest).dropWhile pyWs) = false := by
      apply hasTriple_append_right ((c :: rest).takeWhile pyWs)
      rw [hsplit]
      exact h
    have hwft : wsFreeHead ((c :: rest).dropWhile pyWs) = true := wsFreeHead_dropWhile _
    have hcount : ¬ 3 ≤ ((c :: rest).takeWhile pyWs).count '\n' := by
      intro h3
      have hmem : '\n' ∈ (c :: rest).takeWhile pyWs :=
        List.count_pos_iff.mp (by omega)
      obtain ⟨r₂, hd⟩ := dropWhile_ne_nl_head _ hmem
      have hrsplit :
          ((c :: rest).takeWhile pyWs).takeWhile (fun c => decide (c ≠ '\n')) ++
            ('\n' :: r₂) = (c :: rest).takeWhile pyWs := by
        rw [← hd]
        exact List.takeWhile_append_dropWhile _ _
      have hsfx : hasTriple (('\n' :: r₂) ++ (c :: rest).dropWhile pyWs) = false := by
        apply hasTriple_append_right
          (((c :: rest).takeWhile pyWs).takeWhile (fun c => decide (c ≠ '\n')))
        rw [← List.append_assoc, hrsplit, hsplit]
        exact h
      rw [List.cons_append, hasTriple_cons, Bool.or_eq_false_iff] at hsfx
      have hhead := hsfx.1
      have hallnr : ∀ x ∈ '\n' :: r₂, pyWs x = true := by
        intro x hx
        apply hallr
        rw [← hrsplit]
        exact List.mem_append.mpr (Or.inr hx)
      have htw : ('\n' :: (r₂ ++ (c :: rest).dropWhile pyWs)).takeWhile pyWs =
          '\n' :: r₂ := by
        have h0 := takeWhile_append_of_all pyWs ('\n' :: r₂)
          ((c :: rest).dropWhile pyWs) hallnr
        rw [List.cons_append] at h0
        rw [h0, takeWhile_eq_nil_of_wsFreeHead _ hwft, List.append_nil]
      rw [htw] at hhead
      have hc2 : ('\n' :: r₂).count '\n' = ((c :: rest).takeWhile pyWs).count '\n' := by
        rw [← hrsplit, List.count_append]
        have hz : (((c :: rest).takeWhile pyWs).takeWhile
            (fun c => decide (c ≠ '\n'))).count '\n' = 0 := by
          refine List.count_eq_zero.mpr (fun hm => ?_)
          have := List.mem_takeWhile_imp hm
          simp at this
        omega
      simp only [beq_self_eq_true, Bool.true_and, decide_eq_false_iff_not, not_le] at hhead
      omega
    rw [collapseRun, if_neg hcount, ih hht, hsplit]
  | case3 c rest hws ih =>
    intro h
    rw [collapseNl, dif_neg hws]
    rw [hasTriple_cons, Bool.or_eq_false_iff] at h
    rw [ih h.2]

theorem wsFreeHead_rdropWhile (l : List Char) (h : wsFreeHead l = true) :
    wsFreeHead (l.rdropWhile pyWs) = true := by
  obtain ⟨b, hb⟩ := List.rdropWhile_prefix pyWs (l := l)
  cases hr : l.rdropWhile pyWs with
  | nil => simp [wsFreeHead]
  | cons c rest =>
    rw [hr] at hb
    rw [← hb] at h
    simpa [wsFreeHead] using h

theorem wsFreeHead_pyStrip (l : List Char) : wsFreeHead (pyStrip l) = true :=
  wsFreeHead_rdropWhile _ (wsFreeHead_dropWhile l)

theorem pyStrip_idem (l : List Char) : pyStrip (pyStrip l) = pyStrip l := by
  unfold pyStrip
  rw [dropWhile_eq_self_of_wsFreeHead _ (wsFreeHead_rdropWhile _ (wsFreeHead_dropWhile l))]
  exact List.rdropWhile_idempotent pyWs _

theorem hasTriple_pyStrip (l : List Char) (h : hasTriple l = false) :
    hasTriple (pyStrip l) = false := by
  have h1 : hasTriple (l.dropWhile pyWs) = false := by
    obtain ⟨a, ha⟩ := List.dropWhile_suffix (l := l) pyWs
    exact hasTriple_append_right a _ (by rw [ha]; exact h)
  obtain ⟨b, hb⟩ := List.rdropWhile_prefix pyWs (l := l.dropWhile pyWs)
  unfold pyStrip
  exact hasTriple_append_left _ b (by rw [hb]; exact h1)

theorem wsFreeHead_append_single (u : List Char) (c : Char) (hu : wsFreeHead u = true)
    (hc : pyWs c = false) : wsFreeHead (u ++ [c]) = true := by
  cases u with
  | nil => simp [wsFreeHead, hc]
  | cons x rest => simpa [wsFreeHead] using hu

theorem pyStrip_append_dot (l : List Char) :
    pyStrip (pyStrip l ++ ['.']) = pyStrip l ++ ['.'] := by
  have h1 : (pyStrip l ++ ['.']).dropWhile pyWs = pyStrip l ++ ['.'] :=
    dropWhile_eq_self_of_wsFreeHead _
      (wsFreeHead_append_single _ '.' (wsFreeHead_pyStrip l) pyWs_dot)
  show ((pyStrip l ++ ['.']).dropWhile pyWs).rdropWhile pyWs = pyStrip l ++ ['.']
  rw [h1]
  exact List.rdropWhile_concat_neg (p := pyWs) (l := pyStrip l) '.' (by simp [pyWs_dot])

theorem mem_collapseNl (l : List Char) (x : Char) :
    x ∈ collapseNl l → x ∈ l ∨ x = '\n' := by
  induction l using collapseNl.induct with
  | case1 => intro h; simp [collapseNl] at h
  | case2 c rest hws ih =>
    intro h
    rw [collapseNl, dif_pos hws] at h
    rcases List.mem_append.mp h with h | h
    · rcases mem_collapseRun _ _ h with h | h
      · exact Or.inl (( List.takeWhile_prefix pyWs).sublist.subset h)
      · exact Or.inr h
    · rcases ih h with h | h
      · exact Or.inl ((List.dropWhile_suffix pyWs).sublist.subset h)
      · exact Or.inr h
  | case3 c rest hws ih =>
    intro h
    rw [collapseNl, dif_neg hws] at h
    rcases List.mem_cons.mp h with h | h
    · exact Or.inl (h ▸ List.mem_cons_self c rest)
    · rcases ih h with h | h
      · exact Or.inl (List.mem_cons_of_mem c h)
      · exact Or.inr h

theorem mem_pyStrip (l : List Char) (x : Char) (h : x ∈ pyStrip l) : x ∈ l := by
  unfold pyStrip at h
  have h1 := (List.rdropWhile_prefix pyWs (l := l.dropWhile pyWs)).sublist.subset h
  exact (List.dropWhile_suffix pyWs).sublist.subset h1

theorem removeInstBlocks_of_no_bracket (l : List Char) (h : '[' ∉ l) :
    removeInstBlocks l = l := by
  induction l using removeInstBlocks.induct with
  | case1 => simp [removeInstBlocks]
  | case2 c rest hpre s hs ih =>
    exfalso
    apply h
    have hc : c = '[' := by
      have h0 : instOpen = '[' :: "INST]".data := rfl
      rw [h0] at hpre
      simp [List.isPrefixOf] at hpre
      exact hpre.1.symm
    rw [hc]
    exact List.mem_cons_self _ _
  | case3 c rest hpre hnone =>
    exfalso
    apply h
    have hc : c = '[' := by
      have h0 : instOpen = '[' :: "INST]".data := rfl
      rw [h0] at hpre
      simp [List.isPrefixOf] at hpre
      exact hpre.1.symm
    rw [hc]
    exact List.mem_cons_self _ _
  | case4 c rest hpre ih =>
    rw [removeInstBlocks, if_neg hpre, ih (fun hm => h (List.mem_cons_of_mem c hm))]

theorem removeAll_of_head_notMem (c0 : Char) (tl l : List Char) (h : c0 ∉ l) :
    removeAll (c0 :: tl) l = l := by
  induction l with
  | nil => simp [removeAll]
  | cons c rest ih =>
    rw [removeAll]
    have hpre : (c0 :: tl).isPrefixOf (c :: rest) = false := by
      simp only [List.isPrefixOf]
      refine Bool.and_eq_false_iff.mpr (Or.inl (beq_eq_false_iff_ne.mpr ?_))
      intro hcon
      exact h (hcon ▸ List.mem_cons_self c rest)
    rw [if_neg (by simp [hpre]), ih (fun hm => h (List.mem_cons_of_mem c hm))]

theorem removeSTagsAlt_of_no_lt (l : List Char) (h : '<' ∉ l) :
    removeSTagsAlt l = l := by
  induction l with
  | nil => simp [removeSTagsAlt]
  | cons c rest ih =>
    have hc : c ≠ '<' := fun hcon => h (hcon ▸ List.mem_cons_self c rest)
    rw [removeSTagsAlt]
    have hp1 : "<s>".data.isPrefixOf (c :: rest) = false := by
      simp only [show "<s>".data = '<' :: "s>".data from rfl, List.isPrefixOf]
      exact Bool.and_eq_false_iff.mpr (Or.inl (beq_eq_false_iff_ne.mpr (fun x => hc x.symm)))
    have hp2 : "</s>".data.isPrefixOf (c :: rest) = false := by
      simp only [show "</s>".data = '<' :: "/s>".data from rfl, List.isPrefixOf]
      exact Bool.and_eq_false_iff.mpr (Or.inl (beq_eq_false_iff_ne.mpr (fun x => hc x.symm)))
    rw [if_neg (by simp [hp1]), if_neg (by simp [hp2]),
      ih (fun hm => h (List.mem_cons_of_mem c hm))]

theorem notMem_pyStrip_collapseNl (l : List Char) (x : Char) (hl : x ∉ l)
    (hx : x ≠ '\n') : x ∉ pyStrip (collapseNl l) := by
  intro h
  rcases mem_collapseNl l x (mem_pyStrip _ _ h) with h | h
  · exact hl h
  · exact hx h

/-- On marker-free input the mailserver cleanup is exactly
collapse-then-strip. -/
theorem ms_clean_of_marker_free (s : String) (h1 : '[' ∉ s.data)
    (h2 : '<' ∉ s.data) :
    MailserverEmailBot.clean_response s = ⟨pyStrip (collapseNl s.data)⟩ := by
  unfold MailserverEmailBot.clean_response
  have e1 : "<s>".data = '<' :: "s>".data := rfl
  have e2 : "</s>".data = '<' :: "/s>".data := rfl
  rw [removeInstBlocks_of_no_bracket _ h1, e1,
    removeAll_of_head_notMem '<' "s>".data _ h2, e2,
    removeAll_of_head_notMem '<' "/s>".data _ h2]

/-- On marker-free input the ProtonMail cleanup is collapse-then-strip
followed by the final-period rule. -/
theorem proton_clean_of_marker_free (s : String) (h1 : '[' ∉ s.data)
    (h2 : '<' ∉ s.data) :
    ProtonMailBot.clean_response s =
      (if endsDot (pyStrip (collapseNl s.data)) then
        (⟨pyStrip (collapseNl s.data)⟩ : String)
      else ⟨pyStrip (collapseNl s.data) ++ ['.']⟩) := by
  unfold ProtonMailBot.clean_response
  rw [removeInstBlocks_of_no_bracket _ h1, removeSTagsAlt_of_no_lt _ h2]

/-- **C7, counterexample.**  `_clean_response` is not idempotent: marker
removal can re-expose markers.  The mailserver variant cleans `"<s<s>>"` to
`"<s>"` (removing the inner `<s>` splices the outer characters into a new
`<s>`), and cleaning that output again yields `""`. -/
theorem claim_C7_counterexample :
    MailserverEmailBot.clean_response (MailserverEmailBot.clean_response "<s<s>>") ≠
      MailserverEmailBot.clean_response "<s<s>>" := by
  have h1 : MailserverEmailBot.clean_response "<s<s>>" = "<s>" := by
    simp +decide [MailserverEmailBot.clean_response, removeInstBlocks, removeAll,
      collapseNl, collapseRun, pyStrip, List.rdropWhile, instOpen, instClose]
  rw [h1]
  have h2 : MailserverEmailBot.clean_response "<s>" = "" := by
    simp +decide [MailserverEmailBot.clean_response, removeInstBlocks, removeAll,
      collapseNl, collapseRun, pyStrip, List.rdropWhile, instOpen, instClose]
  rw [h2]
  decide

/-- **C7, amended.**  On strings containing neither `'['` nor `'<'` — so
that no instruction-delimiter or `<s>`/`</s>` removal can interact — both
variants' `_clean_response` are idempotent: the newline collapse leaves
every whitespace run with at most two newlines (so a second collapse is the
identity), stripping preserves that shape, re-stripping a stripped string
is the identity, and the ProtonMail final-period rule never fires twice. -/
theorem claim_C7_amended_idempotent_on_marker_free :
    (∀ s : String, '[' ∉ s.data → '<' ∉ s.data →
      MailserverEmailBot.clean_response (MailserverEmailBot.clean_response s) =
        MailserverEmailBot.clean_response s) ∧
    (∀ s : String, '[' ∉ s.data → '<' ∉ s.data →
      ProtonMailBot.clean_response (ProtonMailBot.clean_response s) =
        ProtonMailBot.clean_response s) := by
  constructor
  · intro s h1 h2
    rw [ms_clean_of_marker_free s h1 h2]
    have h1u : '[' ∉ pyStrip (collapseNl s.data) :=
      notMem_pyStrip_collapseNl _ _ h1 (by decide)
    have h2u : '<' ∉ pyStrip (collapseNl s.data) :=
      notMem_pyStrip_collapseNl _ _ h2 (by decide)
    rw [ms_clean_of_marker_free ⟨pyStrip (collapseNl s.data)⟩ h1u h2u]
    have hnt : hasTriple (pyStrip (collapseNl s.data)) = false :=
      hasTriple_pyStrip _ (hasTriple_collapseNl s.data)
    show (⟨pyStrip (collapseNl (pyStrip (collapseNl s.data)))⟩ : String) = _
    rw [collapseNl_eq_self _ hnt, pyStrip_idem]
  · intro s h1 h2
    rw [proton_clean_of_marker_free s h1 h2]
    have h1u : '[' ∉ pyStrip (collapseNl s.data) :=
      notMem_pyStrip_collapseNl _ _ h1 (by decide)
    have h2u : '<' ∉ pyStrip (collapseNl s.data) :=
      notMem_pyStrip_collapseNl _ _ h2 (by decide)
    have hnt : hasTriple (pyStrip (collapseNl s.data)) = false :=
      hasTriple_pyStrip _ (hasTriple_collapseNl s.data)
    by_cases hdot : endsDot (pyStrip (collapseNl s.data)) = true
    · rw [if_pos hdot]
      rw [proton_clean_of_marker_free ⟨pyStrip (collapseNl s.data)⟩ h1u h2u]
      show (if endsDot (pyStrip (collapseNl (pyStrip (collapseNl s.data)))) then _
        else _) = _
      rw [collapseNl_eq_self _ hnt, pyStrip_idem, if_pos hdot]
    · rw [if_neg hdot]
      have h1d : '[' ∉ pyStrip (collapseNl s.data) ++ ['.'] := by
        intro hm
        rcases List.mem_append.mp hm with hm | hm
        · exact h1u hm
        · simp at hm
      have h2d : '<' ∉ pyStrip (collapseNl s.data) ++ ['.'] := by
        intro hm
        rcases List.mem_append.mp hm with hm | hm
        · exact h2u hm
        · simp at hm
      rw [proton_clean_of_marker_free ⟨pyStrip (collapseNl s.data) ++ ['.']⟩ h1d h2d]
      have hnt2 : hasTriple (pyStrip (collapseNl s.data) ++ ['.']) = false :=
        hasTriple_append_single_nonws _ '.' pyWs_dot hnt
      show (if endsDot (pyStrip (collapseNl (pyStrip (collapseNl s.data) ++ ['.'])))
        then _ else _) = _
      rw [collapseNl_eq_self _ hnt2, pyStrip_append_dot]
      have hend : endsDot (pyStrip (collapseNl s.data) ++ ['.']) = true := by
        simp [endsDot, List.getLast?_concat]
      rw [if_pos hend]

/-- Witness for the amended C7 at concrete marker-free strings (one per
variant, one with a collapsible newline run, one triggering the ProtonMail
period append). -/
theorem claim_C7_amended_witness :
    MailserverEmailBot.clean_response
        (MailserverEmailBot.clean_response "Bonjour.\n\n\n\nMerci !") =
      MailserverEmailBot.clean_response "Bonjour.\n\n\n\nMerci !" ∧
    ProtonMailBot.clean_response (ProtonMailBot.clean_response "Bonjour") =
      ProtonMailBot.clean_response "Bonjour" :=
  ⟨claim_C7_amended_idempotent_on_marker_free.1 "Bonjour.\n\n\n\nMerci !"
     (by decide) (by decide),
   claim_C7_amended_idempotent_on_marker_free.2 "Bonjour" (by decide) (by decide)⟩

end CodeDuTravail
